import Mathlib

/-!
Verification development for `PyExpLabSys/common/sockets.py`, a UDP
data-socket module.  The module keeps a process-wide registry `DATA`
mapping port numbers to per-publisher datasets, and a request handler
`DataUDPHandler` that answers text commands from a dataset snapshot.

Python dicts are embedded as association lists with insert-or-update
semantics; a Python function that can raise is embedded as a function
into `Option`/`Except` where `none`/`.error` marks the raised exception.
Point coordinates (Python floats) are embedded as rationals, and the
string rendering of a float is modelled for values with a terminating
decimal expansion, which covers every value the development evaluates.
-/

set_option autoImplicit false

namespace PySockets

universe u v

/-! ### Association lists: the embedding of Python `dict` -/

/-- Lookup in an association list; `dict.__getitem__` without the raise
(`none` plays the role of `KeyError` at use sites). -/
def alookup {κ : Type u} {α : Type v} [DecidableEq κ] : List (κ × α) → κ → Option α
  | [], _ => none
  | (k2, v) :: rest, k => if k2 = k then some v else alookup rest k

/-- `dict[k] = v`: update in place when the key exists, append otherwise. -/
def ainsert {κ : Type u} {α : Type v} [DecidableEq κ] : List (κ × α) → κ → α → List (κ × α)
  | [], k, v => [(k, v)]
  | (k2, v2) :: rest, k, v =>
    if k2 = k then (k2, v) :: rest else (k2, v2) :: ainsert rest k v

/-- `del dict[k]`: remove the key. -/
def aerase {κ : Type u} {α : Type v} [DecidableEq κ] (l : List (κ × α)) (k : κ) :
    List (κ × α) :=
  l.filter (fun kv => kv.1 ≠ k)

/-- The keys of an association list, in order. -/
def akeys {κ : Type u} {α : Type v} (l : List (κ × α)) : List κ :=
  l.map Prod.fst

/-- A Python loop that may raise while building a list: stop at the first
`none`, otherwise collect all results. -/
def mapOpt {α : Type u} {β : Type v} (f : α → Option β) : List α → Option (List β)
  | [] => some []
  | a :: rest =>
    match f a with
    | none => none
    | some b => (mapOpt f rest).map (fun bs => b :: bs)

/-- A Python loop that may raise while updating an accumulator. -/
def foldOpt {σ : Type u} {α : Type v} (f : σ → α → Option σ) : σ → List α → Option σ
  | s, [] => some s
  | s, a :: rest =>
    match f s a with
    | none => none
    | some s2 => foldOpt f s2 rest

/-- Python `str.split(sep)` for a one-character separator, on the
character list of the string.  Splits at every occurrence. -/
def splitOnChar (c : Char) : List Char → List (List Char)
  | [] => [[]]
  | a :: rest =>
    let r := splitOnChar c rest
    if a = c then [] :: r
    else
      match r with
      | [] => [[a]]
      | h :: t => (a :: h) :: t

/-! ### Module constants (sockets.py lines 31-36) -/

/-- `BAD_CHARS = ['#', ',', ';', ':']` — characters not allowed in
code names. -/
def BAD_CHARS : List Char := ['#', ',', ';', ':']

/-- `UNKNOWN_COMMAND = 'UNKNOWN_COMMMAND'` — the string returned if an
unknown command is sent to the socket.  The source really assigns the
misspelled value with three `M`s to the constant named with two. -/
def UNKNOWN_COMMAND : String := "UNKNOWN_COMMMAND"

/-- `OLD_DATA = 'OLD_DATA'` — the string used to indicate old data. -/
def OLD_DATA : String := "OLD_DATA"

/-! ### Float and JSON rendering

Python 2 `str()`/`repr()` and `json.dumps` rendering of the values the
module serves.  Floats are embedded as rationals and rendered by long
division; the rendering agrees with Python exactly on floats whose value
has a terminating decimal expansion (such as `3.0`, `4.0`, `21.5`),
which are the only values evaluated here. -/

/-- Fractional digits of `rem / den` by long division, at most `fuel`
digits, stopping when the remainder hits zero. -/
def fracDigits : Nat → Nat → Nat → String
  | 0, _, _ => ""
  | fuel + 1, rem, den =>
    if rem = 0 then ""
    else
      let r := rem * 10
      toString (r / den) ++ fracDigits fuel (r % den) den

/-- Python `str(float)` for a terminating decimal: sign, integer part,
dot, fractional digits (`"3.0"` for three). -/
def pyFloatStr (q : ℚ) : String :=
  let sign := if q < 0 then "-" else ""
  let m := q.num.natAbs
  let d := q.den
  let frac := fracDigits 32 (m % d) d
  sign ++ toString (m / d) ++ "." ++ (if frac = "" then "0" else frac)

/-- JSON string escaping for one character (the cases that arise for
ASCII code names and sentinels). -/
def jsonEscChar (c : Char) : String :=
  if c = '"' then "\\\""
  else if c = '\\' then "\\\\"
  else if c = '\n' then "\\n"
  else if c = '\t' then "\\t"
  else if c = '\r' then "\\r"
  else String.singleton c

/-- `json.dumps` of a string. -/
def jsonStr (s : String) : String :=
  "\"" ++ String.join (s.toList.map jsonEscChar) ++ "\""

/-- `json.dumps` of a two-float point (a tuple serializes as an array,
default separator `", "`). -/
def jsonPoint (p : ℚ × ℚ) : String :=
  "[" ++ pyFloatStr p.1 ++ ", " ++ pyFloatStr p.2 ++ "]"

/-- `json.dumps` of a list of already-rendered elements. -/
def jsonArray (elems : List String) : String :=
  "[" ++ String.intercalate ", " elems ++ "]"

/-- `json.dumps` of a dict of already-rendered values (keys in dict
order, default separators `", "` and `": "`). -/
def jsonDict (entries : List (String × String)) : String :=
  "\x7b" ++ String.intercalate ", " (entries.map (fun e => jsonStr e.1 ++ ": " ++ e.2)) ++ "\x7d"

/-! ### The data model: one entry of the `DATA` registry -/

/-- The `'type'` tag of a registry entry: `'data'` for `DataSocket`
(the spec's `Plain`), `'date'` for `DateDataSocket` (the spec's
`TimestampedWithTimeout`). -/
inductive SocketKind : Type
  | data
  | date
deriving DecidableEq, Repr

/-- One value of the `DATA` registry: the dict a `DataSocket` or
`DateDataSocket` builds for its port.  `DataSocket` entries carry no
`'timeouts'` key in the source; here the field is simply never read for
kind `.data`. -/
structure Dataset : Type where
  type : SocketKind
  codenames : List String
  data : List (String × ℚ × ℚ)
  timeouts : List (String × Option ℚ)
deriving DecidableEq, Repr

/-- `DataSocket.set_point` / `DateDataSocket.set_point` (identical
bodies): `DATA[self.port]['data'][codename] = point`. -/
def set_point (ds : Dataset) (codename : String) (point : ℚ × ℚ) : Dataset :=
  { ds with data := ainsert ds.data codename point }

/-- `DATA[self.port]['timeouts'].get(code_name)`: `None` both when the
key is absent and when the stored value is `None`. -/
def timeoutGet (ds : Dataset) (code_name : String) : Option ℚ :=
  match alookup ds.timeouts code_name with
  | none => none
  | some t => t

/-- `DataUDPHandler._old_data`: whether the data for `code_name` has
timed out, given the current time `now` (`time.time()`).  `none` is the
`KeyError` raised when a timeout is configured but no point is stored. -/
def old_data (ds : Dataset) (now : ℚ) (code_name : String) : Option Bool :=
  match ds.type with
  | .date =>
    match timeoutGet ds code_name with
    | some timeout =>
      match alookup ds.data code_name with
      | some point => some (decide (now - point.1 > timeout))
      | none => none
    | none => some false
  | .data => some false

/-- `'{},{}'.format(*DATA[self.port]['data'][name])`. -/
def rawPoint (p : ℚ × ℚ) : String :=
  pyFloatStr p.1 ++ "," ++ pyFloatStr p.2

/-- One entry of the bulk `raw` loop: `OLD_DATA` when stale, otherwise
the formatted point (`none` = `KeyError`). -/
def rawEntry (ds : Dataset) (now : ℚ) (codename : String) : Option String :=
  match old_data ds now codename with
  | none => none
  | some true => some OLD_DATA
  | some false => (alookup ds.data codename).map rawPoint

/-- One element of the bulk `json` loop, already rendered: the string
`OLD_DATA` when stale (serialized as a JSON string inside the array),
otherwise the point. -/
def jsonEntry (ds : Dataset) (now : ℚ) (codename : String) : Option String :=
  match old_data ds now codename with
  | none => none
  | some true => some (jsonStr OLD_DATA)
  | some false => (alookup ds.data codename).map jsonPoint

/-- One entry of the bulk `raw_wn` loop: `'{}:{}'.format(codename, OLD_DATA)`
or `'{}:{},{}'.format(codename, x, y)`. -/
def rawWnEntry (ds : Dataset) (now : ℚ) (codename : String) : Option String :=
  match old_data ds now codename with
  | none => none
  | some true => some (codename ++ ":" ++ OLD_DATA)
  | some false => (alookup ds.data codename).map (fun p => codename ++ ":" ++ rawPoint p)

/-- The `json_wn` branch before serialization:
`datacopy = dict(DATA[self.port]['data'])`, then every stale codename's
value is replaced by `OLD_DATA` (`none` marks the replacement). -/
def jsonWnFold (ds : Dataset) (now : ℚ) : Option (List (String × Option (ℚ × ℚ))) :=
  foldOpt
    (fun acc codename =>
      (old_data ds now codename).map
        (fun old => if old then ainsert acc codename none else acc))
    (ds.data.map (fun kv => (kv.1, some kv.2)))
    ds.codenames

/-- Render one `json_wn` dict value. -/
def jsonWnValue : Option (ℚ × ℚ) → String
  | none => jsonStr OLD_DATA
  | some p => jsonPoint p

/-- `DataUDPHandler._single_value`: reply for a `codename#mode` command.
`none` is an uncaught exception. -/
def single_value (ds : Dataset) (now : ℚ) (command : String) : Option String :=
  match (splitOnChar '#' command.toList).map String.mk with
  | [name, mode] =>
    if mode = "raw" ∧ (alookup ds.data name).isSome then
      match old_data ds now name with
      | none => none
      | some true => some OLD_DATA
      | some false => (alookup ds.data name).map rawPoint
    else if mode = "json" ∧ (alookup ds.data name).isSome then
      match old_data ds now name with
      | none => none
      | some true => some (jsonStr OLD_DATA)
      | some false => (alookup ds.data name).map jsonPoint
    else some UNKNOWN_COMMAND
  | _ => none

/-- `DataUDPHandler._all_values`: reply for a bulk command.  `none` is
an uncaught exception. -/
def all_values (ds : Dataset) (now : ℚ) (command : String) : Option String :=
  if command = "raw" then
    (mapOpt (rawEntry ds now) ds.codenames).map (String.intercalate ";")
  else if command = "json" then
    (mapOpt (jsonEntry ds now) ds.codenames).map jsonArray
  else if command = "raw_wn" then
    (mapOpt (rawWnEntry ds now) ds.codenames).map (String.intercalate ";")
  else if command = "json_wn" then
    (jsonWnFold ds now).map
      (fun entries => jsonDict (entries.map (fun e => (e.1, jsonWnValue e.2))))
  else if command = "codenames_raw" then
    some (String.intercalate "," ds.codenames)
  else if command = "codenames_json" then
    some (jsonArray (ds.codenames.map jsonStr))
  else
    some UNKNOWN_COMMAND

/-- `DataUDPHandler.handle` (the pure part): dispatch on
`command.count('#') == 1` to the single-value or the bulk path. -/
def handle (ds : Dataset) (now : ℚ) (command : String) : Option String :=
  if command.toList.count '#' = 1 then single_value ds now command
  else all_values ds now command

/-! ### The process-wide state: the `DATA` registry and the sockets

`DATA` is the module-level dict from port to dataset.  `bound` models
the operating-system side: the multiset of ports to which a live
`SocketServer.UDPServer` socket is currently bound.  `UDPServer`
construction binds the port and raises `socket.error` when the port is
already bound (`allow_reuse_address` is false for these servers);
`shutdown()` only stops the `serve_forever` loop and does not close the
socket, so it leaves the port in `bound` — the module never calls
`server_close()`, and `DateDataSocket.stop`'s own docstring notes that
deleting the instance is also necessary to free the port. -/

/-- The process-wide mutable state: the `DATA` registry plus the ports
with a bound server socket. -/
structure World : Type where
  registry : List (Nat × Dataset)
  bound : List Nat
deriving DecidableEq, Repr

/-- `Except` tag check, for stating success and failure decidably. -/
def isOk {ε : Type u} {α : Type v} : Except ε α → Bool
  | .ok _ => true
  | .error _ => false

/-- The first `BAD_CHARS` member occurring in `name`
(`for char in BAD_CHARS: if char in name: raise ...`). -/
def firstBadChar (name : String) : Option Char :=
  BAD_CHARS.find? (fun c => name.toList.contains c)

/-- The per-codename loop of `DataSocket.__init__`: for each name check
duplicates, then bad characters, then initialize its point; the checks
run after `DATA[port]` is already set, so mutations made before a raise
persist.  Returns the dataset as mutated so far and the outcome. -/
def dataInitLoop (codenames : List String) (default_x default_y : ℚ) :
    List String → Dataset → Dataset × Except String Unit
  | [], ds => (ds, .ok ())
  | name :: rest, ds =>
    if codenames.count name > 1 then
      (ds, .error ("Codenames must be unique; present more than once: " ++ name))
    else
      match firstBadChar name with
      | some _ => (ds, .error "The character is not allowed in the codenames")
      | none =>
        dataInitLoop codenames default_x default_y rest
          { ds with data := ainsert ds.data name (default_x, default_y) }

/-- `DataSocket.__init__`: check the port against `DATA`, set
`DATA[port]` to a fresh entry, run the per-codename loop (whose raises
leave `DATA[port]` behind), and finally construct the `UDPServer`,
which binds the port or raises `socket.error` when it is already
bound. -/
def DataSocket.init (w : World) (codenames : List String) (port : Nat)
    (default_x default_y : ℚ) : World × Except String Unit :=
  if (alookup w.registry port).isSome then
    (w, .error "A UDP server already exists on port")
  else
    match dataInitLoop codenames default_x default_y codenames
        { type := .data, codenames := codenames, data := [], timeouts := [] } with
    | (ds1, .error e) => ({ w with registry := ainsert w.registry port ds1 }, .error e)
    | (ds1, .ok ()) =>
      if port ∈ w.bound then
        ({ w with registry := ainsert w.registry port ds1 },
         .error "socket.error: Address already in use")
      else
        ({ registry := ainsert w.registry port ds1, bound := port :: w.bound }, .ok ())

/-- The duck-typed `timeouts` argument of `DateDataSocket.__init__`:
either a scalar (a float or `None`, no `__len__`) or a list. -/
inductive TimeoutsArg : Type
  | scalar (t : Option ℚ)
  | ofList (ts : List (Option ℚ))
deriving DecidableEq, Repr

/-- The timeout check of `DateDataSocket.__init__`: a list must have as
many items as `codenames`; a scalar is replicated into a list. -/
def normalizeTimeouts (timeouts : TimeoutsArg) (codenames : List String) :
    Except String (List (Option ℚ)) :=
  match timeouts with
  | .ofList ts =>
    if ts.length ≠ codenames.length then
      .error "If a list of timeouts is supplied, it must have as many items as there are in codenames"
    else .ok ts
  | .scalar t => .ok (List.replicate codenames.length t)

/-- The per-codename loop of `DateDataSocket.__init__` over
`zip(codenames, timeouts)`: duplicate check, bad-character check, then
initialize the point and the timeout entry. -/
def dateInitLoop (codenames : List String) (default_x default_y : ℚ) :
    List (String × Option ℚ) → Dataset → Dataset × Except String Unit
  | [], ds => (ds, .ok ())
  | (name, timeout) :: rest, ds =>
    if codenames.count name > 1 then
      (ds, .error ("Codenames must be unique; present more than once: " ++ name))
    else
      match firstBadChar name with
      | some _ => (ds, .error "The character is not allowed in the codenames")
      | none =>
        dateInitLoop codenames default_x default_y rest
          { ds with
            data := ainsert ds.data name (default_x, default_y)
            timeouts := ainsert ds.timeouts name timeout }

/-- `DateDataSocket.__init__`: port check, timeout-list check (before
any mutation), then `DATA[port]` is set and the per-codename loop runs
(raises leave `DATA[port]` behind), and finally the `UDPServer` binds
the port or raises. -/
def DateDataSocket.init (w : World) (codenames : List String) (port : Nat)
    (default_x default_y : ℚ) (timeouts : TimeoutsArg) : World × Except String Unit :=
  if (alookup w.registry port).isSome then
    (w, .error "A UDP server already exists on port")
  else
    match normalizeTimeouts timeouts codenames with
    | .error e => (w, .error e)
    | .ok ts =>
      match dateInitLoop codenames default_x default_y (codenames.zip ts)
          { type := .date, codenames := codenames, data := [], timeouts := [] } with
      | (ds1, .error e) => ({ w with registry := ainsert w.registry port ds1 }, .error e)
      | (ds1, .ok ()) =>
        if port ∈ w.bound then
          ({ w with registry := ainsert w.registry port ds1 },
           .error "socket.error: Address already in use")
        else
          ({ registry := ainsert w.registry port ds1, bound := port :: w.bound }, .ok ())

/-- `DataSocket.stop` / `DateDataSocket.stop` (identical bodies):
`self.server.shutdown()` — which stops the serve loop but does not
close the socket, so `bound` is untouched — then `del DATA[self.port]`. -/
def stop (w : World) (port : Nat) : World :=
  { w with registry := aerase w.registry port }

/-! ### The data-model invariants (spec §3)

Within one dataset the codenames are unique, every codename has a
stored point, and for a timestamped dataset every codename has a
timeout entry (possibly `None`). -/

/-- The spec's dataset invariants, as a decidable predicate. -/
def Dataset.wf (ds : Dataset) : Prop :=
  ds.codenames.Nodup ∧
  (∀ n ∈ ds.codenames, (alookup ds.data n).isSome) ∧
  (ds.type = .date → ∀ n ∈ ds.codenames, (alookup ds.timeouts n).isSome)

instance (ds : Dataset) : Decidable ds.wf := by
  unfold Dataset.wf
  infer_instance

/-! ### Sample data for concrete instantiations -/

/-- A small plain dataset used to instantiate theorems. -/
def samplePlain : Dataset :=
  { type := .data, codenames := ["a", "b"],
    data := [("a", (3, 4)), ("b", (1, 2))], timeouts := [] }

/-- A small timestamped dataset: codename `t` with timeout `5`,
codename `p` never stale. -/
def sampleDate : Dataset :=
  { type := .date, codenames := ["t", "p"],
    data := [("t", (100, 21)), ("p", (100, 1))],
    timeouts := [("t", some 5), ("p", none)] }

/-! ### Lemmas about the embedding of dicts and loops -/

theorem alookup_ainsert_self {κ : Type u} {α : Type v} [DecidableEq κ]
    (l : List (κ × α)) (k : κ) (v : α) : alookup (ainsert l k v) k = some v := by
  induction l with
  | nil => simp [ainsert, alookup]
  | cons kv rest ih =>
    by_cases h : kv.1 = k
    · simp [ainsert, alookup, h]
    · simp only [ainsert, alookup]
      rw [if_neg h]
      simp only [alookup]
      rw [if_neg h]
      exact ih

theorem alookup_ainsert_ne {κ : Type u} {α : Type v} [DecidableEq κ]
    (l : List (κ × α)) (k k2 : κ) (v : α) (h : k2 ≠ k) :
    alookup (ainsert l k v) k2 = alookup l k2 := by
  induction l with
  | nil =>
    simp only [ainsert, alookup]
    rw [if_neg (fun he => h he.symm)]
  | cons kv rest ih =>
    by_cases hk : kv.1 = k
    · simp only [ainsert]
      rw [if_pos hk]
      simp only [alookup]
      rw [if_neg (fun he => h (hk ▸ he).symm), if_neg (fun he => h (hk ▸ he).symm)]
    · simp only [ainsert]
      rw [if_neg hk]
      simp only [alookup]
      by_cases hk2 : kv.1 = k2
      · rw [if_pos hk2, if_pos hk2]
      · rw [if_neg hk2, if_neg hk2]
        exact ih

theorem mem_akeys_of_alookup {κ : Type u} {α : Type v} [DecidableEq κ]
    (l : List (κ × α)) (k : κ) (v : α) (h : alookup l k = some v) : k ∈ akeys l := by
  induction l with
  | nil => simp [alookup] at h
  | cons kv rest ih =>
    simp only [alookup] at h
    by_cases hk : kv.1 = k
    · simp [akeys, hk.symm]
    · rw [if_neg hk] at h
      simp [akeys] at ih ⊢
      rcases ih h with h2
      exact Or.inr h2

theorem mem_akeys_ainsert {κ : Type u} {α : Type v} [DecidableEq κ]
    (l : List (κ × α)) (k k2 : κ) (v : α) (h : k2 ∈ akeys l) :
    k2 ∈ akeys (ainsert l k v) := by
  induction l with
  | nil => simp [akeys] at h
  | cons kv rest ih =>
    simp only [akeys, List.map_cons, List.mem_cons] at h
    by_cases hk : kv.1 = k
    · simp only [ainsert]
      rw [if_pos hk]
      rcases h with h | h
      · simp [akeys, h]
      · simp only [akeys, List.map_cons, List.mem_cons]
        exact Or.inr h
    · simp only [ainsert]
      rw [if_neg hk]
      simp only [akeys, List.map_cons, List.mem_cons] at ih ⊢
      rcases h with h | h
      · exact Or.inl h
      · exact Or.inr (ih h)

theorem alookup_aerase_self {κ : Type u} {α : Type v} [DecidableEq κ]
    (l : List (κ × α)) (k : κ) : alookup (aerase l k) k = none := by
  induction l with
  | nil => rfl
  | cons kv rest ih =>
    simp only [aerase, List.filter_cons]
    by_cases hk : kv.1 = k
    · rw [if_neg (by simp [hk])]
      exact ih
    · rw [if_pos (by simp [hk]), alookup, if_neg hk]
      exact ih

theorem mapOpt_isSome {α : Type u} {β : Type v} (f : α → Option β) (l : List α)
    (h : ∀ a ∈ l, (f a).isSome) : (mapOpt f l).isSome := by
  induction l with
  | nil => simp [mapOpt]
  | cons a rest ih =>
    simp only [mapOpt]
    rcases hfa : f a with _ | b
    · exact absurd (hfa ▸ h a (List.mem_cons_self a rest)) (by simp)
    · have := ih (fun x hx => h x (List.mem_cons_of_mem a hx))
      rcases hrest : mapOpt f rest with _ | bs
      · rw [hrest] at this
        simp at this
      · simp

theorem mapOpt_congr {α : Type u} {β : Type v} (f g : α → Option β) (l : List α)
    (h : ∀ a ∈ l, f a = g a) : mapOpt f l = mapOpt g l := by
  induction l with
  | nil => rfl
  | cons a rest ih =>
    simp only [mapOpt]
    rw [h a (List.mem_cons_self a rest),
      ih (fun x hx => h x (List.mem_cons_of_mem a hx))]

theorem foldOpt_isSome {σ : Type u} {α : Type v} (f : σ → α → Option σ) (l : List α)
    (h : ∀ a ∈ l, ∀ s, (f s a).isSome) : ∀ s, (foldOpt f s l).isSome := by
  induction l with
  | nil => intro s; simp [foldOpt]
  | cons a rest ih =>
    intro s
    simp only [foldOpt]
    rcases hfa : f s a with _ | s2
    · exact absurd (hfa ▸ h a (List.mem_cons_self a rest) s) (by simp)
    · exact ih (fun x hx s3 => h x (List.mem_cons_of_mem a hx) s3) s2

theorem foldOpt_invariant {σ : Type u} {α : Type v} (f : σ → α → Option σ)
    (P : σ → Prop) (l : List α) :
    ∀ s s', foldOpt f s l = some s' → P s →
      (∀ s1 s2 a, a ∈ l → f s1 a = some s2 → P s1 → P s2) → P s' := by
  induction l with
  | nil =>
    intro s s' hfold hP _
    simp only [foldOpt, Option.some.injEq] at hfold
    exact hfold ▸ hP
  | cons a rest ih =>
    intro s s' hfold hP hstep
    simp only [foldOpt] at hfold
    rcases hfa : f s a with _ | s2
    · rw [hfa] at hfold; exact absurd hfold (by simp)
    · rw [hfa] at hfold
      exact ih s2 s' hfold (hstep s s2 a (List.mem_cons_self a rest) hfa hP)
        (fun s1 s3 x hx => hstep s1 s3 x (List.mem_cons_of_mem a hx))

/-! ### Lemmas about `splitOnChar` -/

theorem splitOnChar_length (c : Char) (l : List Char) :
    (splitOnChar c l).length = l.count c + 1 := by
  induction l with
  | nil => simp [splitOnChar]
  | cons a rest ih =>
    simp only [splitOnChar]
    by_cases h : a = c
    · simp only [if_pos h, List.length_cons, ih, List.count_cons]
      simp [h]
    · rw [if_neg h]
      rcases hr : splitOnChar c rest with _ | ⟨hd, tl⟩
      · rw [hr] at ih
        simp at ih
      · rw [hr] at ih
        simp only [List.length_cons, List.count_cons, beq_iff_eq, if_neg h] at ih ⊢
        omega

theorem splitOnChar_of_not_mem (c : Char) (l : List Char) (h : c ∉ l) :
    splitOnChar c l = [l] := by
  induction l with
  | nil => rfl
  | cons a rest ih =>
    have hac : ¬ a = c := fun he => h (by rw [← he]; exact List.mem_cons_self a rest)
    simp only [splitOnChar]
    rw [if_neg hac, ih (fun hm => h (List.mem_cons_of_mem a hm))]

theorem splitOnChar_append (c : Char) (a b : List Char) (ha : c ∉ a) :
    splitOnChar c (a ++ c :: b) = a :: splitOnChar c b := by
  induction a with
  | nil => simp [splitOnChar]
  | cons x rest ih =>
    have hxc : ¬ x = c := fun he => ha (by rw [← he]; exact List.mem_cons_self x rest)
    have hrest : c ∉ rest := fun hm => ha (List.mem_cons_of_mem x hm)
    rw [List.cons_append]
    simp only [splitOnChar]
    rw [if_neg hxc, ih hrest]

theorem string_mk_toList (s : String) : String.mk s.toList = s := rfl

theorem toList_append (s t : String) : (s ++ t).toList = s.toList ++ t.toList :=
  String.data_append s t

/-! ### Lemmas about `old_data` and the entry formatters -/

theorem old_data_isSome (ds : Dataset) (now : ℚ) (name : String)
    (h : (alookup ds.data name).isSome) : (old_data ds now name).isSome := by
  rcases ds with ⟨ty, cn, da, tos⟩
  cases ty with
  | data => simp [old_data]
  | date =>
    simp only [old_data]
    rcases timeoutGet ⟨.date, cn, da, tos⟩ name with _ | t
    · simp
    · rcases hl : alookup da name with _ | p
      · rw [hl] at h
        simp at h
      · simp

/-! ### The claims -/

/-- Claim C1: the claim says every unrecognized command is answered with
exactly the string `"UNKNOWN_COMMAND"`.  The code misspells the
constant's value: the name `UNKNOWN_COMMAND` is assigned
`'UNKNOWN_COMMMAND'` (three `M`s), so the wire reply differs from the
documented sentinel; the `OLD_DATA` sentinel is served as documented. -/
theorem sentinel_strings_misspelled :
    handle samplePlain 0 "bogus_command" = some UNKNOWN_COMMAND ∧
    UNKNOWN_COMMAND = "UNKNOWN_COMMMAND" ∧
    UNKNOWN_COMMAND ≠ "UNKNOWN_COMMAND" ∧
    OLD_DATA = "OLD_DATA" ∧
    handle sampleDate 106 "t#raw" = some OLD_DATA ∧
    handle sampleDate 106 "t#json" = some "\"OLD_DATA\"" := by
  have h1 : old_data sampleDate 106 "t" = some true := by
    have e : old_data sampleDate 106 "t" = some (decide ((106 : ℚ) - 100 > 5)) := rfl
    rw [e]
    simp only [Option.some.injEq]
    exact decide_eq_true (by norm_num)
  have h2 : handle sampleDate 106 "t#raw" = some OLD_DATA := by
    have e : handle sampleDate 106 "t#raw"
        = (match old_data sampleDate 106 "t" with
           | none => none
           | some true => some OLD_DATA
           | some false => (alookup sampleDate.data "t").map rawPoint) := rfl
    rw [e, h1]
  have h3 : handle sampleDate 106 "t#json" = some "\"OLD_DATA\"" := by
    have e : handle sampleDate 106 "t#json"
        = (match old_data sampleDate 106 "t" with
           | none => none
           | some true => some (jsonStr OLD_DATA)
           | some false => (alookup sampleDate.data "t").map jsonPoint) := rfl
    rw [e, h1]
    decide
  exact ⟨rfl, rfl, by decide, rfl, h2, h3⟩

/-- Claim C4: the single-value path is taken if and only if the command
contains exactly one `#`; any other command goes to the bulk vocabulary,
so `"a#b#raw"` (two `#`) is answered with the unknown-command
sentinel. -/
theorem hash_dispatch (ds : Dataset) (now : ℚ) (command : String) :
    (command.toList.count '#' = 1 → handle ds now command = single_value ds now command) ∧
    (command.toList.count '#' ≠ 1 → handle ds now command = all_values ds now command) ∧
    handle ds now "a#b#raw" = some UNKNOWN_COMMAND := by
  refine ⟨fun h => ?_, fun h => ?_, ?_⟩
  · rw [handle, if_pos h]
  · rw [handle, if_neg h]
  · rfl

/-- Witness for `hash_dispatch`: concrete commands with one and with
zero `#` characters. -/
theorem hash_dispatch_witness :
    handle samplePlain 0 "a#raw" = single_value samplePlain 0 "a#raw" ∧
    handle samplePlain 0 "raw" = all_values samplePlain 0 "raw" :=
  ⟨(hash_dispatch samplePlain 0 "a#raw").1 (by decide),
   (hash_dispatch samplePlain 0 "raw").2.1 (by decide)⟩

/-- Claim C3: for a plain (`'data'`) dataset nothing is ever stale; for
a timestamped (`'date'`) dataset a codename with a stored point is stale
iff a timeout is configured for it and `now - point.x > timeout`
strictly, so a point with `now - point.x = timeout` is not stale. -/
theorem old_data_spec (ds : Dataset) (now : ℚ) (name : String) :
    (ds.type = .data → old_data ds now name = some false) ∧
    (ds.type = .date → ∀ p : ℚ × ℚ, alookup ds.data name = some p →
      ((old_data ds now name = some true ↔
         ∃ t, timeoutGet ds name = some t ∧ now - p.1 > t) ∧
       (∀ t, timeoutGet ds name = some t → now - p.1 = t →
         old_data ds now name = some false))) := by
  rcases ds with ⟨ty, cn, da, tos⟩
  cases ty with
  | data =>
    exact ⟨fun _ => rfl, fun hty => SocketKind.noConfusion hty⟩
  | date =>
    refine ⟨fun hty => SocketKind.noConfusion hty, fun _ p hp => ⟨?_, ?_⟩⟩
    · simp only [old_data]
      rcases htg : timeoutGet ⟨.date, cn, da, tos⟩ name with _ | t
      · simp
      · rw [hp]
        constructor
        · intro hsome
          refine ⟨t, rfl, ?_⟩
          simpa using hsome
        · rintro ⟨t2, ht2, hgt⟩
          rw [Option.some.injEq] at ht2
          subst ht2
          simpa using hgt
    · intro t htg heq
      have hod : old_data ⟨.date, cn, da, tos⟩ now name
          = some (decide (now - p.1 > t)) := by
        simp only [old_data]
        rw [htg, hp]
      rw [hod, heq]
      simp

/-- Witness for `old_data_spec`: in `sampleDate`, codename `t` has
timeout `5` and point time `100`; at `now = 105` (the exact boundary) it
is not stale, at `now = 106` it is. -/
theorem old_data_spec_witness :
    old_data sampleDate 105 "t" = some false ∧
    old_data sampleDate 106 "t" = some true := by
  constructor
  · exact ((old_data_spec sampleDate 105 "t").2 rfl (100, 21) rfl).2 5 rfl (by norm_num)
  · exact ((old_data_spec sampleDate 106 "t").2 rfl (100, 21) rfl).1.mpr
      ⟨5, rfl, by norm_num⟩

/-- `single_value` restated through a known split of the command. -/
theorem single_value_eq (ds : Dataset) (now : ℚ) (cmd : String) (name mode : String)
    (hp : (splitOnChar '#' cmd.toList).map String.mk = [name, mode]) :
    single_value ds now cmd =
      if mode = "raw" ∧ (alookup ds.data name).isSome then
        match old_data ds now name with
        | none => none
        | some true => some OLD_DATA
        | some false => (alookup ds.data name).map rawPoint
      else if mode = "json" ∧ (alookup ds.data name).isSome then
        match old_data ds now name with
        | none => none
        | some true => some (jsonStr OLD_DATA)
        | some false => (alookup ds.data name).map jsonPoint
      else some UNKNOWN_COMMAND := by
  simp only [single_value]
  rw [hp]

theorem map_isSome_of_isSome {α : Type u} {β : Type v} (a : Option α) (f : α → β)
    (h : a.isSome) : (a.map f).isSome := by
  obtain ⟨x, hx⟩ := Option.isSome_iff_exists.mp h
  rw [hx]
  rfl

theorem rawEntry_isSome (ds : Dataset) (now : ℚ) (n : String)
    (h : (alookup ds.data n).isSome) : (rawEntry ds now n).isSome := by
  rw [rawEntry]
  rcases hod : old_data ds now n with _ | b
  · have h2 := old_data_isSome ds now n h
    rw [hod] at h2
    simp at h2
  · cases b
    · obtain ⟨p, hpd⟩ := Option.isSome_iff_exists.mp h
      rw [hpd]
      rfl
    · rfl

theorem jsonEntry_isSome (ds : Dataset) (now : ℚ) (n : String)
    (h : (alookup ds.data n).isSome) : (jsonEntry ds now n).isSome := by
  rw [jsonEntry]
  rcases hod : old_data ds now n with _ | b
  · have h2 := old_data_isSome ds now n h
    rw [hod] at h2
    simp at h2
  · cases b
    · obtain ⟨p, hpd⟩ := Option.isSome_iff_exists.mp h
      rw [hpd]
      rfl
    · rfl

theorem rawWnEntry_isSome (ds : Dataset) (now : ℚ) (n : String)
    (h : (alookup ds.data n).isSome) : (rawWnEntry ds now n).isSome := by
  rw [rawWnEntry]
  rcases hod : old_data ds now n with _ | b
  · have h2 := old_data_isSome ds now n h
    rw [hod] at h2
    simp at h2
  · cases b
    · obtain ⟨p, hpd⟩ := Option.isSome_iff_exists.mp h
      rw [hpd]
      rfl
    · rfl

/-- Claim C5: given any dataset satisfying the data-model invariants,
the interpreter returns exactly one reply and never raises (`isSome`);
a single-value command for a nonexistent codename or with an
unrecognized mode, and a bulk command outside the vocabulary, are all
answered with the unknown-command sentinel. -/
theorem handle_never_raises (ds : Dataset) (now : ℚ) (cmd : String) (h : ds.wf) :
    (handle ds now cmd).isSome ∧
    (∀ name mode : String, (splitOnChar '#' cmd.toList).map String.mk = [name, mode] →
       alookup ds.data name = none → single_value ds now cmd = some UNKNOWN_COMMAND) ∧
    (∀ name mode : String, (splitOnChar '#' cmd.toList).map String.mk = [name, mode] →
       mode ≠ "raw" → mode ≠ "json" → single_value ds now cmd = some UNKNOWN_COMMAND) ∧
    (cmd ∉ (["raw", "json", "raw_wn", "json_wn", "codenames_raw", "codenames_json"] : List String) →
       all_values ds now cmd = some UNKNOWN_COMMAND) := by
  obtain ⟨-, hdata, -⟩ := h
  refine ⟨?_, ?_, ?_, ?_⟩
  · rw [handle]
    by_cases hc : cmd.toList.count '#' = 1
    · rw [if_pos hc]
      have hlen : ((splitOnChar '#' cmd.toList).map String.mk).length = 2 := by
        rw [List.length_map, splitOnChar_length, hc]
      rcases hp : (splitOnChar '#' cmd.toList).map String.mk with _ | ⟨name, _ | ⟨mode, _ | _⟩⟩ <;>
        rw [hp] at hlen <;> simp at hlen
      rw [single_value_eq ds now cmd name mode hp]
      split_ifs with h1 h2
      · rcases hod : old_data ds now name with _ | b
        · have h3 := old_data_isSome ds now name h1.2
          rw [hod] at h3
          simp at h3
        · cases b
          · obtain ⟨p, hpd⟩ := Option.isSome_iff_exists.mp h1.2
            rw [hpd]
            rfl
          · rfl
      · rcases hod : old_data ds now name with _ | b
        · have h3 := old_data_isSome ds now name h2.2
          rw [hod] at h3
          simp at h3
        · cases b
          · obtain ⟨p, hpd⟩ := Option.isSome_iff_exists.mp h2.2
            rw [hpd]
            rfl
          · rfl
      · rfl
    · rw [if_neg hc, all_values]
      split_ifs
      · obtain ⟨l, hl⟩ := Option.isSome_iff_exists.mp
          (mapOpt_isSome _ _ (fun n hn => rawEntry_isSome ds now n (hdata n hn)))
        rw [hl]
        rfl
      · obtain ⟨l, hl⟩ := Option.isSome_iff_exists.mp
          (mapOpt_isSome _ _ (fun n hn => jsonEntry_isSome ds now n (hdata n hn)))
        rw [hl]
        rfl
      · obtain ⟨l, hl⟩ := Option.isSome_iff_exists.mp
          (mapOpt_isSome _ _ (fun n hn => rawWnEntry_isSome ds now n (hdata n hn)))
        rw [hl]
        rfl
      · have hsome : (jsonWnFold ds now).isSome := by
          rw [jsonWnFold]
          exact foldOpt_isSome _ ds.codenames
            (fun n hn s =>
              map_isSome_of_isSome (old_data ds now n) _
                (old_data_isSome ds now n (hdata n hn)))
            _
        obtain ⟨l, hl⟩ := Option.isSome_iff_exists.mp hsome
        rw [hl]
        rfl
      · rfl
      · rfl
      · rfl
  · intro name mode hp hnone
    rw [single_value_eq ds now cmd name mode hp,
      if_neg (fun hand => by rw [hnone] at hand; exact absurd hand.2 (by simp)),
      if_neg (fun hand => by rw [hnone] at hand; exact absurd hand.2 (by simp))]
  · intro name mode hp hraw hjson
    rw [single_value_eq ds now cmd name mode hp,
      if_neg (fun hand => hraw hand.1), if_neg (fun hand => hjson hand.1)]
  · intro hnotin
    simp only [List.mem_cons, List.not_mem_nil, or_false, not_or] at hnotin
    obtain ⟨e1, e2, e3, e4, e5, e6⟩ := hnotin
    rw [all_values, if_neg e1, if_neg e2, if_neg e3, if_neg e4, if_neg e5, if_neg e6]

/-- Witness for `handle_never_raises`: `samplePlain` satisfies the
invariants; a bulk query is answered, and the three failure shapes
return the sentinel. -/
theorem handle_never_raises_witness :
    Dataset.wf samplePlain ∧
    (handle samplePlain 0 "raw").isSome = true ∧
    single_value samplePlain 0 "zz#raw" = some UNKNOWN_COMMAND ∧
    single_value samplePlain 0 "a#bogus" = some UNKNOWN_COMMAND ∧
    all_values samplePlain 0 "nonsense" = some UNKNOWN_COMMAND := by
  refine ⟨by decide, (handle_never_raises samplePlain 0 "raw" (by decide)).1, ?_, ?_, ?_⟩
  · exact (handle_never_raises samplePlain 0 "zz#raw" (by decide)).2.1 "zz" "raw"
      (by decide) (by decide)
  · exact (handle_never_raises samplePlain 0 "a#bogus" (by decide)).2.2.1 "a" "bogus"
      (by decide) (by decide) (by decide)
  · exact (handle_never_raises samplePlain 0 "nonsense" (by decide)).2.2.2 (by decide)

/-- Claim C7: after `set_point(name, (3.0, 4.0))`, when the stored point
for `name` is not stale, the single-value query `name#raw` replies
exactly `"3.0,4.0"` and `name#json` replies `"[3.0, 4.0]"` (the JSON
array of the two floats). -/
theorem set_point_roundtrip (ds : Dataset) (name : String) (now : ℚ)
    (hname : '#' ∉ name.toList)
    (hfresh : old_data (set_point ds name (3, 4)) now name = some false) :
    handle (set_point ds name (3, 4)) now (name ++ "#raw") = some "3.0,4.0" ∧
    handle (set_point ds name (3, 4)) now (name ++ "#json") = some "[3.0, 4.0]" := by
  have hdata : alookup (set_point ds name (3, 4)).data name = some (3, 4) :=
    alookup_ainsert_self ds.data name (3, 4)
  have hsome : (alookup (set_point ds name (3, 4)).data name).isSome = true := by
    rw [hdata]
    rfl
  constructor
  · have htl : (name ++ "#raw").toList = name.toList ++ '#' :: "raw".toList := by
      rw [toList_append]
      rfl
    have hcount : (name ++ "#raw").toList.count '#' = 1 := by
      rw [htl, List.count_append, List.count_eq_zero.mpr hname]
      decide
    have hsplit : (splitOnChar '#' (name ++ "#raw").toList).map String.mk
        = [name, "raw"] := by
      rw [htl, splitOnChar_append '#' name.toList "raw".toList hname,
        splitOnChar_of_not_mem '#' "raw".toList (by decide)]
      simp only [List.map_cons, List.map_nil, string_mk_toList]
    rw [handle, if_pos hcount,
      single_value_eq (set_point ds name (3, 4)) now _ name "raw" hsplit,
      if_pos ⟨rfl, hsome⟩, hfresh, hdata]
    decide
  · have htl : (name ++ "#json").toList = name.toList ++ '#' :: "json".toList := by
      rw [toList_append]
      rfl
    have hcount : (name ++ "#json").toList.count '#' = 1 := by
      rw [htl, List.count_append, List.count_eq_zero.mpr hname]
      decide
    have hsplit : (splitOnChar '#' (name ++ "#json").toList).map String.mk
        = [name, "json"] := by
      rw [htl, splitOnChar_append '#' name.toList "json".toList hname,
        splitOnChar_of_not_mem '#' "json".toList (by decide)]
      simp only [List.map_cons, List.map_nil, string_mk_toList]
    rw [handle, if_pos hcount,
      single_value_eq (set_point ds name (3, 4)) now _ name "json" hsplit,
      if_neg (fun hand => by exact absurd hand.1 (by decide)),
      if_pos ⟨rfl, hsome⟩, hfresh, hdata]
    decide

/-- Witness for `set_point_roundtrip` at codename `a` of `samplePlain`
(a plain dataset, hence never stale). -/
theorem set_point_roundtrip_witness :
    handle (set_point samplePlain "a" (3, 4)) 0 "a#raw" = some "3.0,4.0" ∧
    handle (set_point samplePlain "a" (3, 4)) 0 "a#json" = some "[3.0, 4.0]" :=
  set_point_roundtrip samplePlain "a" 0 (by decide) rfl

/-- The `DataSocket.__init__` per-codename loop never touches the
`codenames` field. -/
theorem dataInitLoop_codenames (cn : List String) (dx dy : ℚ) (pending : List String) :
    ∀ d : Dataset, (dataInitLoop cn dx dy pending d).1.codenames = d.codenames := by
  induction pending with
  | nil => intro d; rfl
  | cons name rest ih =>
    intro d
    simp only [dataInitLoop]
    split
    · rfl
    · split
      · rfl
      · exact ih _

/-- A successful `DataSocket.__init__` registers under `port` a dataset
whose `codenames` are exactly the supplied list, and binds the port. -/
theorem DataSocket.init_ok_dataset (w : World) (cn : List String) (port : Nat)
    (dx dy : ℚ) (w2 : World) (hinit : DataSocket.init w cn port dx dy = (w2, .ok ())) :
    ∃ ds1, alookup w2.registry port = some ds1 ∧ ds1.codenames = cn ∧
      w2.bound = port :: w.bound := by
  rw [DataSocket.init] at hinit
  split at hinit
  · exact absurd (congrArg Prod.snd hinit) (by simp)
  · split at hinit
    · exact absurd (congrArg Prod.snd hinit) (by simp)
    · rename_i ds1 heq
      split at hinit
      · exact absurd (congrArg Prod.snd hinit) (by simp)
      · rw [Prod.mk.injEq] at hinit
        obtain ⟨hw2, -⟩ := hinit
        refine ⟨ds1, ?_, ?_, ?_⟩
        · rw [← hw2]
          exact alookup_ainsert_self w.registry port ds1
        · have h3 := dataInitLoop_codenames cn dx dy cn
            { type := .data, codenames := cn, data := [], timeouts := [] }
          rw [heq] at h3
          exact h3
        · rw [← hw2]

/-- Claim C8: `codenames_raw` joins the codenames with `,` and
`codenames_json` returns the JSON array of the codenames, both in
exactly the construction order, after any sequence of `set_point`
updates (queries are pure and cannot change state at all). -/
theorem codenames_order (w : World) (codenames : List String) (port : Nat)
    (dx dy : ℚ) (w2 : World) (ds : Dataset)
    (hinit : DataSocket.init w codenames port dx dy = (w2, .ok ()))
    (hds : alookup w2.registry port = some ds)
    (ops : List (String × ℚ × ℚ)) (now : ℚ) :
    handle (ops.foldl (fun d op => set_point d op.1 op.2) ds) now "codenames_raw"
      = some (String.intercalate "," codenames) ∧
    handle (ops.foldl (fun d op => set_point d op.1 op.2) ds) now "codenames_json"
      = some (jsonArray (codenames.map jsonStr)) := by
  obtain ⟨ds1, hds1, hcn, -⟩ := DataSocket.init_ok_dataset w codenames port dx dy w2 hinit
  rw [hds1, Option.some.injEq] at hds
  have hfold : ∀ (ops : List (String × ℚ × ℚ)) (d : Dataset),
      (ops.foldl (fun d op => set_point d op.1 op.2) d).codenames = d.codenames := by
    intro ops
    induction ops with
    | nil => intro d; rfl
    | cons op rest ih =>
      intro d
      rw [List.foldl_cons]
      exact ih _
  have h1 : ∀ (d : Dataset) (t : ℚ),
      handle d t "codenames_raw" = some (String.intercalate "," d.codenames) :=
    fun d t => rfl
  have h2 : ∀ (d : Dataset) (t : ℚ),
      handle d t "codenames_json" = some (jsonArray (d.codenames.map jsonStr)) :=
    fun d t => rfl
  rw [h1, h2, hfold, ← hds, hcn]
  exact ⟨rfl, rfl⟩

/-- Witness for `codenames_order`: a publisher constructed with
codenames `["b", "a"]` on a fresh world, after one `set_point`. -/
theorem codenames_order_witness :
    handle ((([("a", (1, 2))] : List (String × ℚ × ℚ)).foldl
        (fun d op => set_point d op.1 op.2)
        ⟨.data, ["b", "a"], [("b", (47, 47)), ("a", (47, 47))], []⟩)) 0 "codenames_raw"
      = some (String.intercalate "," ["b", "a"]) ∧
    handle ((([("a", (1, 2))] : List (String × ℚ × ℚ)).foldl
        (fun d op => set_point d op.1 op.2)
        ⟨.data, ["b", "a"], [("b", (47, 47)), ("a", (47, 47))], []⟩)) 0 "codenames_json"
      = some (jsonArray (["b", "a"].map jsonStr)) :=
  codenames_order ⟨[], []⟩ ["b", "a"] 9000 47 47
    ⟨[(9000, ⟨.data, ["b", "a"], [("b", (47, 47)), ("a", (47, 47))], []⟩)], [9000]⟩
    ⟨.data, ["b", "a"], [("b", (47, 47)), ("a", (47, 47))], []⟩
    rfl rfl [("a", (1, 2))] 0

/-! ### Lemmas about the `DateDataSocket.__init__` loop -/

/-- The per-codename loop succeeds when every pending name passes the
duplicate and bad-character checks. -/
theorem dateInitLoop_ok (cn : List String) (dx dy : ℚ)
    (pending : List (String × Option ℚ))
    (hvalid : ∀ p ∈ pending, cn.count p.1 ≤ 1 ∧ firstBadChar p.1 = none) :
    ∀ d, (dateInitLoop cn dx dy pending d).2 = .ok () := by
  induction pending with
  | nil => intro d; rfl
  | cons q rest ih =>
    rcases q with ⟨name, t⟩
    intro d
    have h1 : cn.count name ≤ 1 := (hvalid (name, t) (List.mem_cons_self _ rest)).1
    have h2 : firstBadChar name = none := (hvalid (name, t) (List.mem_cons_self _ rest)).2
    simp only [dateInitLoop]
    split
    · rename_i hcond
      exact absurd hcond (by omega)
    · split
      · rename_i c hfb
        rw [h2] at hfb
        exact Option.noConfusion hfb
      · exact ih (fun p hp => hvalid p (List.mem_cons_of_mem _ hp)) _

/-- Names sidestepped by the loop keep their timeout entry. -/
theorem dateInitLoop_timeouts_frame (cn : List String) (dx dy : ℚ)
    (pending : List (String × Option ℚ)) :
    ∀ d k, k ∉ pending.map Prod.fst →
      alookup (dateInitLoop cn dx dy pending d).1.timeouts k = alookup d.timeouts k := by
  induction pending with
  | nil => intro d k _; rfl
  | cons q rest ih =>
    rcases q with ⟨name, t⟩
    intro d k hk
    simp only [List.map_cons, List.mem_cons, not_or] at hk
    obtain ⟨hk1, hk2⟩ := hk
    simp only [dateInitLoop]
    split
    · rfl
    · split
      · rfl
      · rw [ih _ k hk2]
        exact alookup_ainsert_ne d.timeouts name k t hk1

/-- After a pass over `pending` (whose names are distinct and valid),
every pending pair is recorded in the timeouts mapping. -/
theorem dateInitLoop_timeouts_mem (cn : List String) (dx dy : ℚ)
    (pending : List (String × Option ℚ))
    (hnodup : (pending.map Prod.fst).Nodup)
    (hvalid : ∀ p ∈ pending, cn.count p.1 ≤ 1 ∧ firstBadChar p.1 = none) :
    ∀ d, ∀ p ∈ pending,
      alookup (dateInitLoop cn dx dy pending d).1.timeouts p.1 = some p.2 := by
  induction pending with
  | nil =>
    intro d p hp
    simp at hp
  | cons q rest ih =>
    rcases q with ⟨name, t⟩
    intro d p hp
    have h1 : cn.count name ≤ 1 := (hvalid (name, t) (List.mem_cons_self _ rest)).1
    have h2 : firstBadChar name = none := (hvalid (name, t) (List.mem_cons_self _ rest)).2
    simp only [List.map_cons, List.nodup_cons] at hnodup
    obtain ⟨hname_rest, hnodup_rest⟩ := hnodup
    simp only [dateInitLoop]
    split
    · rename_i hcond
      exact absurd hcond (by omega)
    · split
      · rename_i c hfb
        rw [h2] at hfb
        exact Option.noConfusion hfb
      · rcases List.mem_cons.mp hp with hpq | hpr
        · subst hpq
          rw [dateInitLoop_timeouts_frame cn dx dy rest _ name hname_rest]
          exact alookup_ainsert_self d.timeouts name t
        · exact ih hnodup_rest (fun r hr => hvalid r (List.mem_cons_of_mem _ hr)) _ p hpr

/-- Zipping a list with a same-length replicate pairs every element with
the replicated value. -/
theorem zip_replicate_self {α : Type u} {β : Type v} (l : List α) (b : β) :
    l.zip (List.replicate l.length b) = l.map (fun a => (a, b)) := by
  induction l with
  | nil => rfl
  | cons a rest ih =>
    simp only [List.length_cons, List.replicate_succ, List.zip_cons_cons, List.map_cons, ih]

/-- Claim C9: with a free port and valid unique codenames, constructing
a `DateDataSocket` with a timeout list succeeds iff the list length
equals the number of codenames, and a scalar timeout is accepted and
recorded for every codename in the timeouts mapping. -/
theorem timeouts_validation (w : World) (cn : List String) (port : Nat) (dx dy : ℚ)
    (hport : alookup w.registry port = none) (hbound : port ∉ w.bound)
    (hnodup : cn.Nodup) (hchars : ∀ n ∈ cn, firstBadChar n = none) :
    (∀ ts : List (Option ℚ),
       (isOk (DateDataSocket.init w cn port dx dy (.ofList ts)).2 = true ↔
         ts.length = cn.length)) ∧
    (∀ t : Option ℚ,
       isOk (DateDataSocket.init w cn port dx dy (.scalar t)).2 = true ∧
       (∀ ds, alookup (DateDataSocket.init w cn port dx dy (.scalar t)).1.registry port
           = some ds → ∀ n ∈ cn, alookup ds.timeouts n = some t)) := by
  have hvalid : ∀ (ts : List (Option ℚ)), ∀ p ∈ cn.zip ts,
      cn.count p.1 ≤ 1 ∧ firstBadChar p.1 = none := by
    intro ts p hp
    rcases p with ⟨a, b⟩
    exact ⟨List.nodup_iff_count_le_one.mp hnodup a, hchars a (List.of_mem_zip hp).1⟩
  have hrun : ∀ (targ : TimeoutsArg) (ts : List (Option ℚ)),
      normalizeTimeouts targ cn = .ok ts →
      ∃ ds1, dateInitLoop cn dx dy (cn.zip ts) ⟨.date, cn, [], []⟩ = (ds1, .ok ()) ∧
        DateDataSocket.init w cn port dx dy targ =
          ({ registry := ainsert w.registry port ds1, bound := port :: w.bound },
           .ok ()) := by
    intro targ ts hnorm
    obtain ⟨ds1, hloop⟩ : ∃ ds1,
        dateInitLoop cn dx dy (cn.zip ts) ⟨.date, cn, [], []⟩ = (ds1, .ok ()) := by
      refine ⟨(dateInitLoop cn dx dy (cn.zip ts) ⟨.date, cn, [], []⟩).1, ?_⟩
      rw [Prod.ext_iff]
      exact ⟨rfl, dateInitLoop_ok cn dx dy (cn.zip ts) (hvalid ts) _⟩
    refine ⟨ds1, hloop, ?_⟩
    rw [DateDataSocket.init, if_neg (by rw [hport]; simp)]
    simp only [hnorm, hloop]
    rw [if_neg hbound]
  constructor
  · intro ts
    by_cases hlen : ts.length = cn.length
    · refine iff_of_true ?_ hlen
      obtain ⟨ds1, -, heval⟩ := hrun (.ofList ts) ts (by
        simp only [normalizeTimeouts]
        rw [if_neg (fun hc => hc hlen)])
      rw [heval]
      rfl
    · refine iff_of_false ?_ hlen
      rw [DateDataSocket.init, if_neg (by rw [hport]; simp)]
      simp only [normalizeTimeouts]
      rw [if_pos hlen]
      simp [isOk]
  · intro t
    have hnorm : normalizeTimeouts (.scalar t) cn = .ok (List.replicate cn.length t) := rfl
    obtain ⟨ds1, hloop, heval⟩ := hrun (.scalar t) (List.replicate cn.length t) hnorm
    constructor
    · rw [heval]
      rfl
    · intro ds hds n hn
      rw [heval] at hds
      have hds2 : alookup (ainsert w.registry port ds1) port = some ds := hds
      rw [alookup_ainsert_self, Option.some.injEq] at hds2
      subst hds2
      have hmem_p : (n, t) ∈ cn.zip (List.replicate cn.length t) := by
        rw [zip_replicate_self]
        exact List.mem_map.mpr ⟨n, hn, rfl⟩
      have hkeys_eq : ((cn.zip (List.replicate cn.length t)).map Prod.fst) = cn :=
        List.map_fst_zip cn _ (by simp)
      have h5 := dateInitLoop_timeouts_mem cn dx dy (cn.zip (List.replicate cn.length t))
        (by rw [hkeys_eq]; exact hnodup) (hvalid _) ⟨.date, cn, [], []⟩ (n, t) hmem_p
      rw [hloop] at h5
      exact h5

/-- Witness for `timeouts_validation`: codenames `["a", "b"]` on a
fresh world. -/
theorem timeouts_validation_witness :
    (∀ ts : List (Option ℚ),
       (isOk (DateDataSocket.init ⟨[], []⟩ ["a", "b"] 9000 0 47 (.ofList ts)).2 = true ↔
         ts.length = (["a", "b"] : List String).length)) ∧
    (∀ t : Option ℚ,
       isOk (DateDataSocket.init ⟨[], []⟩ ["a", "b"] 9000 0 47 (.scalar t)).2 = true ∧
       (∀ ds, alookup
           (DateDataSocket.init ⟨[], []⟩ ["a", "b"] 9000 0 47 (.scalar t)).1.registry 9000
           = some ds → ∀ n ∈ (["a", "b"] : List String), alookup ds.timeouts n = some t)) :=
  timeouts_validation ⟨[], []⟩ ["a", "b"] 9000 0 47 rfl (by decide) (by decide) (by decide)

/-! ### Lemmas about the `DataSocket.__init__` loop -/

/-- The `DataSocket` per-codename loop succeeds when every pending name
passes the duplicate and bad-character checks. -/
theorem dataInitLoop_ok (cn : List String) (dx dy : ℚ) (pending : List String)
    (hvalid : ∀ n ∈ pending, cn.count n ≤ 1 ∧ firstBadChar n = none) :
    ∀ d, (dataInitLoop cn dx dy pending d).2 = .ok () := by
  induction pending with
  | nil => intro d; rfl
  | cons name rest ih =>
    intro d
    have h1 : cn.count name ≤ 1 := (hvalid name (List.mem_cons_self _ rest)).1
    have h2 : firstBadChar name = none := (hvalid name (List.mem_cons_self _ rest)).2
    simp only [dataInitLoop]
    split
    · rename_i hcond
      exact absurd hcond (by omega)
    · split
      · rename_i c hfb
        rw [h2] at hfb
        exact Option.noConfusion hfb
      · exact ih (fun n hn => hvalid n (List.mem_cons_of_mem _ hn)) _

/-- If the `DataSocket` per-codename loop succeeds then every pending
name passed the duplicate and bad-character checks. -/
theorem dataInitLoop_ok_names (cn : List String) (dx dy : ℚ) (pending : List String) :
    ∀ d, (dataInitLoop cn dx dy pending d).2 = .ok () →
      ∀ n ∈ pending, cn.count n ≤ 1 ∧ firstBadChar n = none := by
  induction pending with
  | nil =>
    intro d _ n hn
    simp at hn
  | cons name rest ih =>
    intro d hok n hn
    simp only [dataInitLoop] at hok
    split at hok
    · exact absurd hok (by simp)
    · rename_i hcount
      split at hok
      · exact absurd hok (by simp)
      · rename_i hfb
        rcases List.mem_cons.mp hn with hq | hr
        · subst hq
          exact ⟨by omega, hfb⟩
        · exact ih _ hok n hr

/-- Claim C2 (amended): every construction failure is synchronous and
leaves the socket unbound; the registry is left unchanged by the
port-in-use and timeout-length failures, but a duplicate-codename or
reserved-character failure leaves the partially initialized dataset
registered under the port (the source sets `DATA[port]` before
validating the codenames); with a free, unbound port and valid
codenames, construction succeeds. -/
theorem construction_failure_states (w : World) (cn : List String) (port : Nat)
    (dx dy : ℚ) :
    ((alookup w.registry port).isSome →
       DataSocket.init w cn port dx dy
         = (w, .error "A UDP server already exists on port") ∧
       DateDataSocket.init w cn port dx dy (.scalar none)
         = (w, .error "A UDP server already exists on port")) ∧
    (∀ ts : List (Option ℚ), alookup w.registry port = none → ts.length ≠ cn.length →
       DateDataSocket.init w cn port dx dy (.ofList ts)
         = (w, .error "If a list of timeouts is supplied, it must have as many items as there are in codenames")) ∧
    (alookup w.registry port = none →
       (∃ n ∈ cn, cn.count n > 1 ∨ firstBadChar n ≠ none) →
       isOk (DataSocket.init w cn port dx dy).2 = false ∧
       (DataSocket.init w cn port dx dy).1.bound = w.bound ∧
       (alookup (DataSocket.init w cn port dx dy).1.registry port).isSome = true) ∧
    (alookup w.registry port = none → port ∉ w.bound → cn.Nodup →
       (∀ n ∈ cn, firstBadChar n = none) →
       isOk (DataSocket.init w cn port dx dy).2 = true) := by
  refine ⟨?_, ?_, ?_, ?_⟩
  · intro hreg
    constructor
    · rw [DataSocket.init, if_pos hreg]
    · rw [DateDataSocket.init, if_pos hreg]
  · intro ts hport hlen
    rw [DateDataSocket.init, if_neg (by rw [hport]; simp)]
    simp only [normalizeTimeouts]
    rw [if_pos hlen]
  · intro hport hbad
    rcases hloop : dataInitLoop cn dx dy cn
        { type := .data, codenames := cn, data := [], timeouts := [] } with ⟨ds1, res⟩
    have hres : res ≠ .ok () := by
      intro hok
      obtain ⟨n, hn, hviol⟩ := hbad
      have hok2 : (dataInitLoop cn dx dy cn
          { type := .data, codenames := cn, data := [], timeouts := [] }).2 = .ok () := by
        rw [hloop]
        exact hok
      have hpass := dataInitLoop_ok_names cn dx dy cn _ hok2 n hn
      rcases hviol with h | h
      · omega
      · exact h hpass.2
    rw [DataSocket.init, if_neg (by rw [hport]; simp)]
    simp only [hloop]
    rcases res with e | u
    · refine ⟨rfl, rfl, ?_⟩
      rw [alookup_ainsert_self]
      rfl
    · cases u
      exact absurd rfl hres
  · intro hport hbound hnodup hchars
    have hvalid : ∀ n ∈ cn, cn.count n ≤ 1 ∧ firstBadChar n = none :=
      fun n hn => ⟨List.nodup_iff_count_le_one.mp hnodup n, hchars n hn⟩
    obtain ⟨ds1, hloop⟩ : ∃ ds1, dataInitLoop cn dx dy cn
        { type := .data, codenames := cn, data := [], timeouts := [] } = (ds1, .ok ()) := by
      refine ⟨(dataInitLoop cn dx dy cn
        { type := .data, codenames := cn, data := [], timeouts := [] }).1, ?_⟩
      rw [Prod.ext_iff]
      exact ⟨rfl, dataInitLoop_ok cn dx dy cn hvalid _⟩
    rw [DataSocket.init, if_neg (by rw [hport]; simp)]
    simp only [hloop]
    rw [if_neg hbound]
    rfl

/-- Counterexample to claim C2 as stated: constructing a `DataSocket`
with the duplicate codenames `["a", "a"]` on a fresh world fails, yet
the port is NOT absent from the registry afterwards — the half-built
dataset stays registered. -/
theorem construction_failure_counterexample :
    isOk (DataSocket.init ⟨[], []⟩ ["a", "a"] 9000 47 47).2 = false ∧
    (alookup (DataSocket.init ⟨[], []⟩ ["a", "a"] 9000 47 47).1.registry 9000).isSome
      = true := by
  decide

/-- Claim C6 (amended): `stop()` deletes the registry entry for the
port, but — calling only `shutdown()`, never `server_close()` — leaves
the server socket bound, so immediately constructing a new publisher on
the same port cannot succeed (the bind raises `socket.error`). -/
theorem stop_frees_registry_not_socket (w : World) (port : Nat) :
    alookup (stop w port).registry port = none ∧
    (stop w port).bound = w.bound ∧
    (∀ cn (dx dy : ℚ), port ∈ w.bound →
       isOk (DataSocket.init (stop w port) cn port dx dy).2 = false) := by
  refine ⟨alookup_aerase_self w.registry port, rfl, ?_⟩
  intro cn dx dy hb
  rw [DataSocket.init,
    if_neg (by
      show ¬(alookup (aerase w.registry port) port).isSome = true
      rw [alookup_aerase_self]
      simp)]
  rcases hloop : dataInitLoop cn dx dy cn
      { type := .data, codenames := cn, data := [], timeouts := [] } with ⟨ds1, res⟩
  rcases res with e | u
  · rfl
  · cases u
    simp only [stop]
    rw [if_pos hb]
    rfl

/-- Counterexample to claim C6 as stated: construct on port `9000`,
stop, and construct again — the registry entry is gone but the second
construction fails, because the socket stayed bound. -/
theorem stop_port_leak_counterexample :
    isOk (DataSocket.init ⟨[], []⟩ ["a"] 9000 47 47).2 = true ∧
    alookup (stop (DataSocket.init ⟨[], []⟩ ["a"] 9000 47 47).1 9000).registry 9000
      = none ∧
    isOk (DataSocket.init (stop (DataSocket.init ⟨[], []⟩ ["a"] 9000 47 47).1 9000)
        ["a"] 9000 47 47).2 = false := by
  decide

/-- Witness for `construction_failure_states`: one concrete instance of
each failure case and of the success case. -/
theorem construction_failure_states_witness :
    DataSocket.init ⟨[(9000, samplePlain)], [9000]⟩ ["x"] 9000 47 47
      = (⟨[(9000, samplePlain)], [9000]⟩, .error "A UDP server already exists on port") ∧
    DateDataSocket.init ⟨[], []⟩ ["a", "b"] 9000 0 47 (.ofList [some 1])
      = (⟨[], []⟩, .error "If a list of timeouts is supplied, it must have as many items as there are in codenames") ∧
    isOk (DataSocket.init ⟨[], []⟩ ["a#b"] 9000 47 47).2 = false ∧
    isOk (DataSocket.init ⟨[], []⟩ ["a", "b"] 9000 47 47).2 = true := by
  refine ⟨?_, ?_, ?_, ?_⟩
  · exact ((construction_failure_states ⟨[(9000, samplePlain)], [9000]⟩ ["x"] 9000 47 47).1
      (by decide)).1
  · exact (construction_failure_states ⟨[], []⟩ ["a", "b"] 9000 0 47).2.1 [some 1] rfl
      (by decide)
  · exact ((construction_failure_states ⟨[], []⟩ ["a#b"] 9000 47 47).2.2.1 rfl
      ⟨"a#b", by decide, Or.inr (by decide)⟩).1
  · exact (construction_failure_states ⟨[], []⟩ ["a", "b"] 9000 47 47).2.2.2 rfl
      (by decide) (by decide) (by decide)

/-- Witness for `stop_frees_registry_not_socket` on a world with port
`9000` registered and bound. -/
theorem stop_frees_registry_not_socket_witness :
    alookup (stop ⟨[(9000, samplePlain)], [9000]⟩ 9000).registry 9000 = none ∧
    (stop ⟨[(9000, samplePlain)], [9000]⟩ 9000).bound = [9000] ∧
    isOk (DataSocket.init (stop ⟨[(9000, samplePlain)], [9000]⟩ 9000) ["a"] 9000 47 47).2
      = false := by
  obtain ⟨h1, h2, h3⟩ := stop_frees_registry_not_socket ⟨[(9000, samplePlain)], [9000]⟩ 9000
  exact ⟨h1, h2, h3 ["a"] 47 47 (by decide)⟩

/-! ### Lemmas for the `set_point` frame conditions -/

theorem akeys_ainsert_not_mem {κ : Type u} {α : Type v} [DecidableEq κ]
    (l : List (κ × α)) (k : κ) (v : α) (h : k ∉ akeys l) :
    akeys (ainsert l k v) = akeys l ++ [k] := by
  induction l with
  | nil => rfl
  | cons kv rest ih =>
    simp only [akeys, List.map_cons, List.mem_cons, not_or] at h
    obtain ⟨h1, h2⟩ := h
    simp only [ainsert]
    rw [if_neg (fun he => h1 he.symm)]
    simp only [akeys, List.map_cons, List.cons_append]
    rw [← akeys, ← akeys, ih h2]

/-- `_old_data` only reads the `type`, `timeouts` and the queried
codename's point, so `set_point` on a different codename leaves it
unchanged. -/
theorem old_data_set_point_ne (ds : Dataset) (name : String) (p : ℚ × ℚ) (now : ℚ)
    (m : String) (hm : m ≠ name) :
    old_data (set_point ds name p) now m = old_data ds now m := by
  rcases ds with ⟨ty, cn, da, tos⟩
  cases ty
  · rfl
  · simp only [old_data, set_point, timeoutGet]
    rw [alookup_ainsert_ne da name m p hm]

theorem rawEntry_set_point_ne (ds : Dataset) (name : String) (p : ℚ × ℚ) (now : ℚ)
    (m : String) (hm : m ≠ name) :
    rawEntry (set_point ds name p) now m = rawEntry ds now m := by
  have hd : alookup (set_point ds name p).data m = alookup ds.data m :=
    alookup_ainsert_ne ds.data name m p hm
  rw [rawEntry, rawEntry, old_data_set_point_ne ds name p now m hm, hd]

theorem jsonEntry_set_point_ne (ds : Dataset) (name : String) (p : ℚ × ℚ) (now : ℚ)
    (m : String) (hm : m ≠ name) :
    jsonEntry (set_point ds name p) now m = jsonEntry ds now m := by
  have hd : alookup (set_point ds name p).data m = alookup ds.data m :=
    alookup_ainsert_ne ds.data name m p hm
  rw [jsonEntry, jsonEntry, old_data_set_point_ne ds name p now m hm, hd]

theorem rawWnEntry_set_point_ne (ds : Dataset) (name : String) (p : ℚ × ℚ) (now : ℚ)
    (m : String) (hm : m ≠ name) :
    rawWnEntry (set_point ds name p) now m = rawWnEntry ds now m := by
  have hd : alookup (set_point ds name p).data m = alookup ds.data m :=
    alookup_ainsert_ne ds.data name m p hm
  rw [rawWnEntry, rawWnEntry, old_data_set_point_ne ds name p now m hm, hd]

/-- Claim C10: `set_point` writes only the stored point for its
codename — `type`, `codenames`, `timeouts` and every other codename's
point are unchanged.  For a codename never declared at construction it
silently appends a new key to the points dict, the `codenames` list is
untouched, so the replies to `raw`, `json`, `raw_wn`, `codenames_raw`
and `codenames_json` (which all iterate `codenames`) are exactly the
replies of the un-updated dataset, while the `json_wn` reply serializes
the whole points dict and therefore does contain the inserted key. -/
theorem set_point_frame (ds : Dataset) (name : String) (p : ℚ × ℚ) :
    (set_point ds name p).type = ds.type ∧
    (set_point ds name p).codenames = ds.codenames ∧
    (set_point ds name p).timeouts = ds.timeouts ∧
    alookup (set_point ds name p).data name = some p ∧
    (∀ m, m ≠ name → alookup (set_point ds name p).data m = alookup ds.data m) ∧
    (name ∉ akeys ds.data → akeys (set_point ds name p).data = akeys ds.data ++ [name]) ∧
    (name ∉ ds.codenames → ∀ now cmd,
       cmd ∈ (["raw", "json", "raw_wn", "codenames_raw", "codenames_json"] : List String) →
       handle (set_point ds name p) now cmd = handle ds now cmd) ∧
    (∀ now, ds.wf →
       ∃ entries, jsonWnFold (set_point ds name p) now = some entries ∧
         name ∈ akeys entries ∧
         handle (set_point ds name p) now "json_wn" =
           some (jsonDict (entries.map (fun e => (e.1, jsonWnValue e.2))))) := by
  refine ⟨rfl, rfl, rfl, alookup_ainsert_self ds.data name p,
    fun m hm => alookup_ainsert_ne ds.data name m p hm,
    fun h => akeys_ainsert_not_mem ds.data name p h, ?_, ?_⟩
  · intro hnotin now cmd hcmd
    have hne : ∀ n ∈ ds.codenames, n ≠ name := fun n hn he => hnotin (he ▸ hn)
    simp only [List.mem_cons, List.not_mem_nil, or_false] at hcmd
    rcases hcmd with h | h | h | h | h <;> subst h
    · show (mapOpt (rawEntry (set_point ds name p) now) ds.codenames).map
          (String.intercalate ";")
        = (mapOpt (rawEntry ds now) ds.codenames).map (String.intercalate ";")
      rw [mapOpt_congr _ _ ds.codenames
        (fun n hn => rawEntry_set_point_ne ds name p now n (hne n hn))]
    · show (mapOpt (jsonEntry (set_point ds name p) now) ds.codenames).map jsonArray
        = (mapOpt (jsonEntry ds now) ds.codenames).map jsonArray
      rw [mapOpt_congr _ _ ds.codenames
        (fun n hn => jsonEntry_set_point_ne ds name p now n (hne n hn))]
    · show (mapOpt (rawWnEntry (set_point ds name p) now) ds.codenames).map
          (String.intercalate ";")
        = (mapOpt (rawWnEntry ds now) ds.codenames).map (String.intercalate ";")
      rw [mapOpt_congr _ _ ds.codenames
        (fun n hn => rawWnEntry_set_point_ne ds name p now n (hne n hn))]
    · rfl
    · rfl
  · intro now hwf
    obtain ⟨-, hdata, -⟩ := hwf
    have hstep_some : ∀ n ∈ ds.codenames,
        (old_data (set_point ds name p) now n).isSome := by
      intro n hn
      by_cases he : n = name
      · subst he
        refine old_data_isSome _ now n ?_
        show (alookup (ainsert ds.data n p) n).isSome = true
        rw [alookup_ainsert_self]
        rfl
      · refine old_data_isSome _ now n ?_
        have hd : alookup (set_point ds name p).data n = alookup ds.data n :=
          alookup_ainsert_ne ds.data name n p he
        rw [hd]
        exact hdata n hn
    have hsome : (jsonWnFold (set_point ds name p) now).isSome := by
      rw [jsonWnFold]
      exact foldOpt_isSome _ _
        (fun n hn s => map_isSome_of_isSome _ _ (hstep_some n hn)) _
    obtain ⟨entries, hentries⟩ := Option.isSome_iff_exists.mp hsome
    refine ⟨entries, hentries, ?_, ?_⟩
    · have hmem0 : name ∈ akeys ((set_point ds name p).data.map
          (fun kv => (kv.1, some kv.2))) := by
        have h1 : name ∈ akeys (set_point ds name p).data :=
          mem_akeys_of_alookup _ name p (alookup_ainsert_self ds.data name p)
        simp only [akeys, List.map_map] at h1 ⊢
        exact h1
      have hentries2 : foldOpt
          (fun acc codename =>
            (old_data (set_point ds name p) now codename).map
              (fun old => if old then ainsert acc codename none else acc))
          ((set_point ds name p).data.map (fun kv => (kv.1, some kv.2)))
          (set_point ds name p).codenames = some entries := by
        rw [← jsonWnFold]
        exact hentries
      refine foldOpt_invariant _ (fun s => name ∈ akeys s) _ _ entries hentries2 hmem0 ?_
      intro s1 s2 a ha hf hmem
      rcases hod : old_data (set_point ds name p) now a with _ | b
      · rw [hod] at hf
        exact absurd hf (by simp)
      · rw [hod] at hf
        rw [Option.map_some', Option.some.injEq] at hf
        subst hf
        cases b
        · exact hmem
        · exact mem_akeys_ainsert s1 a name none hmem
    · show (jsonWnFold (set_point ds name p) now).map
          (fun entries => jsonDict (entries.map (fun e => (e.1, jsonWnValue e.2))))
        = some (jsonDict (entries.map (fun e => (e.1, jsonWnValue e.2))))
      rw [hentries]
      rfl

/-- Witness for `set_point_frame`: inserting the undeclared codename
`zz` into `samplePlain`. -/
theorem set_point_frame_witness :
    alookup (set_point samplePlain "zz" (1, 2)).data "zz" = some (1, 2) ∧
    (set_point samplePlain "zz" (1, 2)).codenames = samplePlain.codenames ∧
    handle (set_point samplePlain "zz" (1, 2)) 0 "raw" = handle samplePlain 0 "raw" ∧
    akeys (set_point samplePlain "zz" (1, 2)).data = akeys samplePlain.data ++ ["zz"] ∧
    (∃ entries, jsonWnFold (set_point samplePlain "zz" (1, 2)) 0 = some entries ∧
       "zz" ∈ akeys entries ∧
       handle (set_point samplePlain "zz" (1, 2)) 0 "json_wn" =
         some (jsonDict (entries.map (fun e => (e.1, jsonWnValue e.2))))) := by
  obtain ⟨-, h2, -, h4, -, h6, h7, h8⟩ := set_point_frame samplePlain "zz" (1, 2)
  exact ⟨h4, h2, h7 (by decide) 0 "raw" (by decide), h6 (by decide), h8 0 (by decide)⟩

end PySockets
